import Mathlib

/-!
Verification of the Elasticsearch bulk-ingestion pipeline
(`app/vlinsert/elasticsearch`): timestamp parsing, time-field extraction,
message-field remapping, the two-line protocol decoder `readBulkLine`,
the request loop `readBulkRequest` with its metrics checkpointing, and the
`/_bulk` branch of `RequestHandler` with its batch-accumulator effects.

Go strings are modelled as Lean strings; Go byte indexing / byte length is
modelled as character indexing / character length, which coincides on the
ASCII inputs the protocol deals with.  Machine integers are modelled as
`Int` (the code's own overflow guards keep every produced value inside the
signed 64-bit range, so no wrap-around modelling is needed).
-/

namespace ElasticsearchBulk

/-- A decoded log field (`logstorage.Field`): a name/value string pair. -/
structure Field where
  name : String
  value : String
deriving Repr, DecidableEq

/-- The distinct failure modes of `parseElasticsearchTimestamp`
(each is reported as a `BadTimestamp` error by the caller). -/
inductive TsErr where
  /-- Error "cannot parse timestamp in milliseconds" (strconv.ParseInt failed) -/
  | msParse
  /-- Error "too big timestamp in milliseconds" (above MaxInt64/1e6) -/
  | msTooBig (n : Int)
  /-- Error "too small timestamp in milliseconds" (below MinInt64/1e6) -/
  | msTooSmall (n : Int)
  /-- Error "cannot parse date" (time.Parse with layout 2006-01-02 failed) -/
  | dateParse
  /-- Error "cannot parse timestamp" (time.Parse with layout RFC3339 failed) -/
  | rfc3339Parse
deriving Repr, DecidableEq

/-- Decimal digit test, as Go's byte-range check. -/
def isDecDigit (c : Char) : Bool := '0' ≤ c && c ≤ '9'

/-- Value of a list of decimal digits (most significant first). -/
def decValue (cs : List Char) : Nat :=
  cs.foldl (fun acc c => acc * 10 + (c.toNat - 48)) 0

/-- Go `strconv.ParseInt(s, 10, 64)`: optional sign, one or more decimal
digits, value within the signed 64-bit range; `none` models a non-nil
error (syntax error or range error). -/
def goParseInt64 (s : String) : Option Int :=
  let cs := s.data
  let sd : Bool × List Char :=
    match cs with
    | '-' :: rest => (true, rest)
    | '+' :: rest => (false, rest)
    | _ => (false, cs)
  let neg := sd.1
  let ds := sd.2
  if ds.isEmpty ∨ ¬ (ds.all isDecDigit) then
    none
  else
    let v : Int := if neg then -(decValue ds : Int) else (decValue ds : Int)
    if v < -(2 ^ 63 : Int) ∨ v > 2 ^ 63 - 1 then none else some v

/-- Gregorian leap-year rule (Go `time` package). -/
def isLeapYear (y : Nat) : Bool := y % 4 == 0 && (y % 100 != 0 || y % 400 == 0)

/-- Days in month `m` of year `y` (Go `time.daysIn`). -/
def daysInMonth (y m : Nat) : Nat :=
  if m == 2 then (if isLeapYear y then 29 else 28)
  else if m == 4 ∨ m == 6 ∨ m == 9 ∨ m == 11 then 30
  else 31

/-- Days in year `y` strictly before month `m`. -/
def daysBeforeMonth (y m : Nat) : Nat :=
  (List.range (m - 1)).foldl (fun acc i => acc + daysInMonth y (i + 1)) 0

/-- Proleptic-Gregorian ordinal day number of `y-m-d` (days since 0001-01-01
of year `y + 400`, minus one 400-year cycle of 146097 days, so that
4-digit year `0000` is representable without negative intermediate values). -/
def ordinalDay (y m d : Nat) : Int :=
  let yy := y + 399
  (365 * yy + yy / 4 + yy / 400 + daysBeforeMonth y m + (d - 1) : Int)
    - (yy / 100 : Nat) - 146097

/-- Ordinal day of the Unix epoch 1970-01-01. -/
def epochOrdinal : Int := ordinalDay 1970 1 1

/-- Midnight UTC of `y-m-d`, in nanoseconds since the Unix epoch. -/
def dateUnixNanos (y m d : Nat) : Int :=
  (ordinalDay y m d - epochOrdinal) * 86400 * 1000000000

/-- Value of a fixed two-digit numeric component. -/
def digitsVal2 (a b : Char) : Nat := (a.toNat - 48) * 10 + (b.toNat - 48)

/-- Go `time.Parse("2006-01-02", s)` restricted to the date components:
fixed-width 4-digit year, 2-digit month and day with range validation. -/
def goParseDateYMD (cs : List Char) : Option (Nat × Nat × Nat) :=
  match cs with
  | [y1, y2, y3, y4, a, m1, m2, b, d1, d2] =>
    if a == '-' && b == '-' && [y1, y2, y3, y4, m1, m2, d1, d2].all isDecDigit then
      let y := decValue [y1, y2, y3, y4]
      let m := digitsVal2 m1 m2
      let d := digitsVal2 d1 d2
      if 1 ≤ m && m ≤ 12 && 1 ≤ d && d ≤ daysInMonth y m then some (y, m, d)
      else none
    else none
  | _ => none

/-- Go `time.Parse("2006-01-02", s).UnixNano()`: the parsed date's midnight
UTC in nanoseconds; `none` models a parse error. -/
def goParseDate (s : String) : Option Int :=
  (goParseDateYMD s.data).map (fun x => dateUnixNanos x.1 x.2.1 x.2.2)

/-- RFC 3339 numeric zone designator: `Z`, or `(+|-)hh:mm`, as seconds of
offset east of UTC. -/
def parseZone : List Char → Option Int
  | ['Z'] => some 0
  | [sg, h1, h2, c, m1, m2] =>
    if (sg == '+' || sg == '-') && c == ':' && [h1, h2, m1, m2].all isDecDigit then
      let off : Int := (digitsVal2 h1 h2) * 3600 + (digitsVal2 m1 m2) * 60
      some (if sg == '-' then -off else off)
    else none
  | _ => none

/-- Optional fractional-second component after the seconds field, Go style:
a period or comma followed by one or more digits; the first nine digits
are significant (scaled to nanoseconds), further digits are discarded.
Returns the nanosecond value and the unconsumed remainder. -/
def parseFrac (cs : List Char) : Option (Int × List Char) :=
  match cs with
  | p :: d0 :: rest =>
    if (p == '.' || p == ',') && isDecDigit d0 then
      let ds := (d0 :: rest).takeWhile isDecDigit
      let rest2 := (d0 :: rest).dropWhile isDecDigit
      let ds9 := ds.take 9
      some ((decValue ds9 * 10 ^ (9 - ds9.length) : Nat), rest2)
    else none
  | _ => none

/-- Go `time.Parse(time.RFC3339, s).UnixNano()`: full date-time
`YYYY-MM-DDTHH:MM:SS[.fraction](Z|(+|-)hh:mm)` with component range
validation, in nanoseconds since the Unix epoch; `none` models a parse
error. -/
def goParseRFC3339 (s : String) : Option Int :=
  match s.data with
  | y1 :: y2 :: y3 :: y4 :: a :: m1 :: m2 :: b :: d1 :: d2 :: t ::
      h1 :: h2 :: c1 :: mi1 :: mi2 :: c2 :: s1 :: s2 :: rest =>
    if a == '-' && b == '-' && t == 'T' && c1 == ':' && c2 == ':'
        && [y1, y2, y3, y4, m1, m2, d1, d2, h1, h2, mi1, mi2, s1, s2].all isDecDigit then
      let y := decValue [y1, y2, y3, y4]
      let mo := digitsVal2 m1 m2
      let dy := digitsVal2 d1 d2
      let hh := digitsVal2 h1 h2
      let mm := digitsVal2 mi1 mi2
      let ss := digitsVal2 s1 s2
      if 1 ≤ mo && mo ≤ 12 && 1 ≤ dy && dy ≤ daysInMonth y mo
          && hh ≤ 23 && mm ≤ 59 && ss ≤ 59 then
        let fr : Int × List Char :=
          match parseFrac rest with
          | some x => x
          | none => (0, rest)
        match parseZone fr.2 with
        | some off =>
          some (((ordinalDay y mo dy - epochOrdinal) * 86400
            + hh * 3600 + mm * 60 + ss - off) * 1000000000 + fr.1)
        | none => none
      else none
    else none
  | _ => none

/-- Constant `int64(math.MaxInt64) / 1e6` as computed by Go (exact integer division):
9223372036854775807 / 1000000 = 9223372036854. -/
def maxInt64DivMillion : Int := 9223372036854

/-- Constant `int64(math.MinInt64) / 1e6` as computed by Go (integer division
truncating toward zero): -9223372036854775808 / 1000000 = -9223372036854. -/
def minInt64DivMillion : Int := -9223372036854

/-- Function `parseElasticsearchTimestamp` from the source: three-branch dispatch on
the shape of `s` (`len(s) < len("YYYY-MM-DD") || s[len("YYYY")] != '-'` →
milliseconds; `len(s) == len("YYYY-MM-DD")` → calendar date; otherwise
RFC 3339), with the two overflow guards in the milliseconds branch. -/
def parseElasticsearchTimestamp (s : String) : Except TsErr Int :=
  if s.data.length < 10 ∨ s.data[4]? ≠ some '-' then
    match goParseInt64 s with
    | none => .error .msParse
    | some n =>
      if n > maxInt64DivMillion then .error (.msTooBig n)
      else if n < minInt64DivMillion then .error (.msTooSmall n)
      else .ok (n * 1000000)
  else if s.data.length = 10 then
    match goParseDate s with
    | none => .error .dateParse
    | some t => .ok t
  else
    match goParseRFC3339 s with
    | none => .error .rfc3339Parse
    | some t => .ok t

/-- The milliseconds branch as the spec words it: parse as a base-10
signed 64-bit integer, fail on parse error, reject above `MaxInt64/1e6`
or below `MinInt64/1e6`, otherwise multiply by 1,000,000. -/
def specMillisBranch (s : String) : Except TsErr Int :=
  match goParseInt64 s with
  | none => .error .msParse
  | some n =>
    if n > maxInt64DivMillion then .error (.msTooBig n)
    else if n < minInt64DivMillion then .error (.msTooSmall n)
    else .ok (n * 1000000)

/-- The calendar-date branch as the spec words it: parse `YYYY-MM-DD`,
fail on parse error, result is that date's midnight UTC in nanoseconds. -/
def specDateBranch (s : String) : Except TsErr Int :=
  match goParseDate s with
  | none => .error .dateParse
  | some t => .ok t

/-- The RFC 3339 branch as the spec words it: parse a full internet
date-time, fail on parse error. -/
def specRfc3339Branch (s : String) : Except TsErr Int :=
  match goParseRFC3339 s with
  | none => .error .rfc3339Parse
  | some t => .ok t

/-- The timestamp dispatch exactly as the spec states it : "length at
least 10 and 5th character not `'-'`, OR length less than 10" selects the
milliseconds branch; else length exactly 10 selects the calendar-date
branch; else RFC 3339. -/
def specTimestampDispatch (s : String) : Except TsErr Int :=
  if (10 ≤ s.data.length ∧ s.data[4]? ≠ some '-') ∨ s.data.length < 10 then
    specMillisBranch s
  else if s.data.length = 10 then specDateBranch s
  else specRfc3339Branch s

/-- Function `extractTimestampFromFields` from the source: scan `fields` for the
first one named `timeField`; parse its value, and on success clear that
field's value (the Go code mutates the field in place).  `now` stands for
`time.Now().UnixNano()`, returned when no field matches.  The returned
list is the field list after the (possible) in-place mutation. -/
def extractTimestampFromFields (now : Int) (timeField : String) :
    List Field → Except TsErr Int × List Field
  | [] => (.ok now, [])
  | f :: rest =>
    if f.name = timeField then
      match parseElasticsearchTimestamp f.value with
      | .error e => (.error e, f :: rest)
      | .ok ts => (.ok ts, { f with value := "" } :: rest)
    else
      let r := extractTimestampFromFields now timeField rest
      (r.1, f :: r.2)

/-- The scan loop of `updateMessageFieldName`: rename the first field named
`msgField` to `_msg` and stop. -/
def updateMessageFieldLoop (msgField : String) : List Field → List Field
  | [] => []
  | f :: rest =>
    if f.name = msgField then { f with name := "_msg" } :: rest
    else f :: updateMessageFieldLoop msgField rest

/-- Function `updateMessageFieldName` from the source: no-op when `msgField` is
empty, otherwise rename the first matching field to `_msg`. -/
def updateMessageFieldName (msgField : String) (fields : List Field) : List Field :=
  if msgField = "" then fields else updateMessageFieldLoop msgField fields

/-- How the request byte stream terminates once all complete lines are
consumed: clean end of input, a line exceeding `-insert.maxLineSizeBytes`
(`bufio.ErrTooLong`), or any other read error. -/
inductive ScanEnd where
  | eof
  | tooLong
  | readFailure
deriving Repr, DecidableEq

/-- The failure modes of `readBulkLine` / `readBulkRequest`, one per
`return false, err` site in the source. -/
inductive BulkErr where
  /-- command line exceeds the maximum line size -/
  | cmdTooLong
  /-- scanner error while reading the command line -/
  | cmdReadFailure
  /-- command line lacks both `"create"` and `"index"` -/
  | unexpectedCommand
  /-- document line exceeds the maximum line size -/
  | docTooLong
  /-- scanner error while reading the document line -/
  | docReadFailure
  /-- EOF after a command line, before its document line -/
  | missingDocument
  /-- Error case: the `logjson` parser failed on the document line -/
  | badDocument
  /-- timestamp extraction failed -/
  | badTimestamp (e : TsErr)
deriving Repr, DecidableEq

/-- One decoded row: timestamp plus ordered field list.  The tenant is
fixed per request (`lr.MustAdd(tenantID, ...)` always passes the one
tenant extracted at request start), so it is left implicit. -/
structure Row where
  timestamp : Int
  fields : List Field
deriving Repr, DecidableEq

/-- Observable effects of one `/_bulk` request on the collaborators:
the pooled `LogRows` batch contents (`lr`), the argument of every
`vlstorage.MustAddRows` call (`accepted`), the two metrics counters
(`droppedTotal` increments; `ingestedAdds` records the delta of every
`rowsIngestedTotal.Add` call in order), the net number of objects
currently checked out of each pool (`parserOut` for `logjson` parsers,
`bufOut` for the line buffer, `lrOut` for the `LogRows` object), and the
rows rendered by the debug log path (`logged`). -/
structure Effects where
  lr : List Row
  accepted : List (List Row)
  droppedTotal : Nat
  ingestedAdds : List Nat
  parserOut : Nat
  bufOut : Nat
  lrOut : Nat
  logged : List Row
deriving Repr, DecidableEq

/-- Scanner-plus-effects state threaded through the request: the lines not
yet consumed, how the stream ends after them, and the collaborator
effects so far. -/
structure St where
  lines : List String
  ending : ScanEnd
  fx : Effects
deriving Repr, DecidableEq

/-- Total rows handed to the storage accept path across all
`vlstorage.MustAddRows` calls. -/
def acceptedRows (fx : Effects) : Nat := (fx.accepted.map List.length).sum

/-- The `processLogMessage` closure of `RequestHandler`: `lr.MustAdd`,
then either the debug drop path (render row 0, reset, count a drop) or a
threshold-triggered flush (`lr.NeedFlush` is the external predicate
`needFlush`; on `true`, `vlstorage.MustAddRows(lr)` then
`lr.ResetKeepSettings()`).  `LogRows` semantics (append / reset / flush
hands over the current rows) follow the accumulator contract in the spec,
since `lib/logstorage` is outside the sources. -/
def processLogMessage (isDebug : Bool) (needFlush : List Row → Bool)
    (ts : Int) (fields : List Field) (fx : Effects) : Effects :=
  let fx1 := { fx with lr := fx.lr ++ [⟨ts, fields⟩] }
  if isDebug then
    { fx1 with
      logged := fx1.logged ++ fx1.lr.take 1,
      lr := [],
      droppedTotal := fx1.droppedTotal + 1 }
  else if needFlush fx1.lr then
    { fx1 with accepted := fx1.accepted ++ [fx1.lr], lr := [] }
  else fx1

/-- Does `pat` occur as a contiguous run starting at some suffix of `cs`? -/
def containsSubAux (pat : List Char) : List Char → Bool
  | [] => pat.isEmpty
  | c :: rest => pat.isPrefixOf (c :: rest) || containsSubAux pat rest

/-- Go `strings.Contains` on ASCII content. -/
def containsSub (s pat : String) : Bool := containsSubAux pat.data s.data

/-- The command-line validation of `readBulkLine`: the raw line must
contain `"create"` or `"index"` as a substring. -/
def isBulkCommand (line : String) : Bool :=
  containsSub line "\"create\"" || containsSub line "\"index\""

/-- Function `readBulkLine` from the source: skip blank lines until a command line
(EOF here is the clean no-more-records result `(false, none)`; scanner
errors surface as such); validate the command; read the document line
(EOF here is `missingDocument`); check out a `logjson` parser; decode the
document (`decode` stands for `p.ParseLogMessage`, a black box per the
spec); extract the timestamp, remap the message field, hand the row to
`process`, and only then return the parser to its pool. -/
def readBulkLine (decode : String → Option (List Field)) (now : Int)
    (timeField msgField : String) (process : Int → List Field → Effects → Effects)
    (st : St) : St × Bool × Option BulkErr :=
  match st.lines.dropWhile (fun l => l = "") with
  | [] =>
    let st1 := { st with lines := ([] : List String) }
    match st.ending with
    | .eof => (st1, false, none)
    | .tooLong => (st1, false, some .cmdTooLong)
    | .readFailure => (st1, false, some .cmdReadFailure)
  | cmd :: rest =>
    if ¬ isBulkCommand cmd then
      ({ st with lines := rest }, false, some .unexpectedCommand)
    else
      match rest with
      | [] =>
        let st1 := { st with lines := ([] : List String) }
        match st.ending with
        | .eof => (st1, false, some .missingDocument)
        | .tooLong => (st1, false, some .docTooLong)
        | .readFailure => (st1, false, some .docReadFailure)
      | doc :: rest2 =>
        let st1 := { st with lines := rest2,
                             fx := { st.fx with parserOut := st.fx.parserOut + 1 } }
        match decode doc with
        | none => (st1, false, some .badDocument)
        | some fields =>
          let ex := extractTimestampFromFields now timeField fields
          match ex.1 with
          | .error e => (st1, false, some (.badTimestamp e))
          | .ok ts =>
            let fields2 := updateMessageFieldName msgField ex.2
            let fx2 := process ts fields2 st1.fx
            ({ st1 with fx := { fx2 with parserOut := fx2.parserOut - 1 } },
              true, none)

theorem length_dropWhile_le_self (p : String → Bool) (l : List String) :
    (l.dropWhile p).length ≤ l.length := by
  induction l with
  | nil => simp [List.dropWhile]
  | cons a t ih =>
    by_cases h : p a = true
    · simp [List.dropWhile, h]
      omega
    · simp [List.dropWhile, h]

theorem readBulkLine_ok_lines_lt (decode : String → Option (List Field))
    (now : Int) (timeField msgField : String)
    (process : Int → List Field → Effects → Effects)
    (st st1 : St) (e : Option BulkErr)
    (h : readBulkLine decode now timeField msgField process st = (st1, true, e)) :
    st1.lines.length < st.lines.length := by
  have hlen := length_dropWhile_le_self (fun l => l = "") st.lines
  unfold readBulkLine at h
  split at h
  · split at h <;> simp at h
  · rename_i cmd rest hd
    split at h
    · simp at h
    · split at h
      · split at h <;> simp at h
      · rename_i doc rest2
        rw [hd] at hlen
        split at h
        · simp at h
        · dsimp only at h
          split at h
          · simp at h
          · replace h := congrArg (fun x => x.1.lines) h
            simp at h hlen
            rw [← h]
            omega

/-- The `addIngested` helper: one `rowsIngestedTotal.Add(d)` call. -/
def addIngested (st : St) (d : Nat) : St :=
  { st with fx := { st.fx with ingestedAdds := st.fx.ingestedAdds ++ [d] } }

/-- The request loop of `readBulkRequest`: call `readBulkLine`; on error
or clean end flush the counter checkpoint (`rowsIngestedTotal.Add(n -
nCheckpoint)`) and return `(n, err)`; otherwise `n++`, and when
`n >= 1000` (the condition the source tests, with `batchSize := n -
nCheckpoint`) add `batchSize` to the metric and move the checkpoint.
(`wcr.DecConcurrency()` per iteration touches only the concurrency
limiter, which no claim observes, and is not modelled.) -/
def bulkLoop (decode : String → Option (List Field)) (now : Int)
    (timeField msgField : String) (process : Int → List Field → Effects → Effects)
    (st : St) (n nCheckpoint : Nat) : St × Nat × Option BulkErr :=
  if h : (readBulkLine decode now timeField msgField process st).2.2 ≠ none
      ∨ (readBulkLine decode now timeField msgField process st).2.1 = false then
    (addIngested (readBulkLine decode now timeField msgField process st).1 (n - nCheckpoint),
      n, (readBulkLine decode now timeField msgField process st).2.2)
  else
    if 1000 ≤ n + 1 then
      bulkLoop decode now timeField msgField process
        (addIngested (readBulkLine decode now timeField msgField process st).1
          (n + 1 - nCheckpoint)) (n + 1) (n + 1)
    else
      bulkLoop decode now timeField msgField process
        (readBulkLine decode now timeField msgField process st).1 (n + 1) nCheckpoint
termination_by st.lines.length
decreasing_by
  all_goals
    push_neg at h
    rcases hre : readBulkLine decode now timeField msgField process st with ⟨st1, ok, err⟩
    rw [hre] at h
    obtain ⟨h1, h2⟩ := h
    have hok : ok = true := by
      cases ok
      · exact absurd rfl h2
      · rfl
    have hlt := readBulkLine_ok_lines_lt decode now timeField msgField process st st1 err
      (by rw [hok] at hre; exact hre)
    simp only [hre, addIngested]
    exact hlt

/-- Function `readBulkRequest` from the source, for an uncompressed request body:
check the line buffer out of `lineBufferPool`, run the loop from
`n = nCheckpoint = 0`, and return the buffer on every exit path (the
source's `defer lineBufferPool.Put(lb)`).  The gzip branch only wraps the
reader and is not modelled. -/
def readBulkRequest (decode : String → Option (List Field)) (now : Int)
    (timeField msgField : String) (process : Int → List Field → Effects → Effects)
    (lines : List String) (ending : ScanEnd) (fx0 : Effects) :
    St × Nat × Option BulkErr :=
  let st0 : St := { lines := lines, ending := ending,
                    fx := { fx0 with bufOut := fx0.bufOut + 1 } }
  let r := bulkLoop decode now timeField msgField process st0 0 0
  ({ r.1 with fx := { r.1.fx with bufOut := r.1.fx.bufOut - 1 } }, r.2)

/-- The initial effect state of the `/_bulk` branch: empty batch freshly
checked out of the `LogRows` pool (`logstorage.GetLogRows`), zeroed
request-scoped counters. -/
def initialEffects : Effects :=
  { lr := [], accepted := [], droppedTotal := 0, ingestedAdds := [],
    parserOut := 0, bufOut := 0, lrOut := 1, logged := [] }

/-- The `/_bulk` branch of `RequestHandler` after parameter extraction:
`GetLogRows`, `readBulkRequest` with the `processLogMessage` closure,
then — only when `err == nil` — the final `vlstorage.MustAddRows(lr)` and
`logstorage.PutLogRows(lr)`.  On error the source logs a warning and
returns immediately, performing neither call. -/
def requestHandlerBulk (decode : String → Option (List Field)) (now : Int)
    (timeField msgField : String) (isDebug : Bool) (needFlush : List Row → Bool)
    (lines : List String) (ending : ScanEnd) : St × Nat × Option BulkErr :=
  let r := readBulkRequest decode now timeField msgField
    (processLogMessage isDebug needFlush) lines ending initialEffects
  match r.2.2 with
  | some e => (r.1, r.2.1, some e)
  | none =>
    let st := r.1
    let fx1 := { st.fx with accepted := st.fx.accepted ++ [st.fx.lr],
                            lrOut := st.fx.lrOut - 1 }
    ({ st with fx := fx1 }, r.2.1, none)

/-- A representative well-formed command line. -/
def cmdLine : String := "\x7b\"create\":\x7b\x7d\x7d"

/-- A concrete document decoder for test streams: the document `{}`
decodes to the empty field list, anything else fails to decode. -/
def decodeEmpty : String → Option (List Field) :=
  fun s => if s = "\x7b\x7d" then some [] else none

/-- A `NeedFlush` predicate whose threshold is never crossed. -/
def neverFlush : List Row → Bool := fun _ => false

/-- Streams of `k` well-formed line-pairs, each a command line plus the document
`{}`. -/
def goodLines : Nat → List String
  | 0 => []
  | k + 1 => cmdLine :: "\x7b\x7d" :: goodLines k

/-- The row produced by one such line-pair when the wall clock reads 0. -/
def emptyRow : Row := ⟨0, []⟩

/-- The deltas of the `rowsIngestedTotal.Add` calls the loop performs
while consuming `j` further rows from loop state `(n, nCheckpoint)`,
final end-of-stream call included: after `n++` the source adds
`n - nCheckpoint` whenever `n >= 1000` and moves the checkpoint, and the
exit path always adds the remaining `n - nCheckpoint`. -/
def addsFor : Nat → Nat → Nat → List Nat
  | 0, n, ck => [n - ck]
  | j + 1, n, ck =>
    if 1000 ≤ n + 1 then (n + 1 - ck) :: addsFor j (n + 1) (n + 1)
    else addsFor j (n + 1) ck

theorem dropWhile_blank_replicate (b : Nat) (l : List String) :
    (List.replicate b "" ++ l).dropWhile (fun x => x = "") =
      l.dropWhile (fun x => x = "") := by
  induction b with
  | zero => simp
  | succ m ih =>
    rw [List.replicate_succ, List.cons_append, List.dropWhile_cons]
    simp [ih]

theorem stepA (tail : List String) (ed : ScanEnd) (fx : Effects) :
    readBulkLine decodeEmpty 0 "_time" "" (processLogMessage false neverFlush)
        ⟨cmdLine :: "\x7b\x7d" :: tail, ed, fx⟩ =
      (⟨tail, ed, { fx with lr := fx.lr ++ [emptyRow] }⟩, true, none) := rfl

theorem stepB (tail : List String) (ed : ScanEnd)
    (acc : List (List Row)) (dr : Nat) (adds : List Nat) (po bo lo : Nat) (lg : List Row) :
    readBulkLine decodeEmpty 0 "_time" "" (processLogMessage true neverFlush)
        ⟨cmdLine :: "\x7b\x7d" :: tail, ed, ⟨[], acc, dr, adds, po, bo, lo, lg⟩⟩ =
      (⟨tail, ed, ⟨[], acc, dr + 1, adds, po, bo, lo, lg ++ [emptyRow]⟩⟩, true, none) := rfl

theorem step_bad (tail : List String) (ed : ScanEnd) (fx : Effects)
    (process : Int → List Field → Effects → Effects) :
    readBulkLine decodeEmpty 0 "_time" "" process ⟨cmdLine :: "bad" :: tail, ed, fx⟩ =
      (⟨tail, ed, { fx with parserOut := fx.parserOut + 1 }⟩, false, some .badDocument) := rfl

theorem step_eof (fx : Effects) (process : Int → List Field → Effects → Effects) :
    readBulkLine decodeEmpty 0 "_time" "" process ⟨[], .eof, fx⟩ =
      (⟨[], .eof, fx⟩, false, none) := rfl

theorem bulkLoop_goodThenBad (k : Nat) :
    ∀ (n ck : Nat) (ed : ScanEnd) (fx : Effects),
    bulkLoop decodeEmpty 0 "_time" "" (processLogMessage false neverFlush)
        ⟨goodLines k ++ [cmdLine, "bad"], ed, fx⟩ n ck =
      (⟨[], ed, { fx with lr := fx.lr ++ List.replicate k emptyRow,
                          parserOut := fx.parserOut + 1,
                          ingestedAdds := fx.ingestedAdds ++ addsFor k n ck }⟩,
        n + k, some .badDocument) := by
  induction k with
  | zero =>
    intro n ck ed fx
    unfold bulkLoop
    rw [show goodLines 0 ++ [cmdLine, "bad"] = cmdLine :: "bad" :: [] from rfl]
    rw [step_bad]
    simp [addIngested, addsFor]
  | succ k ih =>
    intro n ck ed fx
    rw [show goodLines (k + 1) ++ [cmdLine, "bad"] =
          cmdLine :: "\x7b\x7d" :: (goodLines k ++ [cmdLine, "bad"]) from rfl]
    unfold bulkLoop
    rw [stepA]
    by_cases hmil : 1000 ≤ n + 1
    · rw [dif_neg (by simp), if_pos hmil]
      simp only [addIngested]
      rw [ih]
      simp [addsFor, hmil, List.replicate_succ]
      omega
    · rw [dif_neg (by simp), if_neg hmil]
      rw [ih]
      simp [addsFor, hmil, List.replicate_succ]
      omega

theorem bulkLoop_goodEof (k : Nat) :
    ∀ (n ck : Nat) (fx : Effects),
    bulkLoop decodeEmpty 0 "_time" "" (processLogMessage false neverFlush)
        ⟨goodLines k, .eof, fx⟩ n ck =
      (⟨[], .eof, { fx with lr := fx.lr ++ List.replicate k emptyRow,
                            ingestedAdds := fx.ingestedAdds ++ addsFor k n ck }⟩,
        n + k, none) := by
  induction k with
  | zero =>
    intro n ck fx
    unfold bulkLoop
    rw [show goodLines 0 = ([] : List String) from rfl]
    rw [step_eof]
    simp [addIngested, addsFor]
  | succ k ih =>
    intro n ck fx
    rw [show goodLines (k + 1) = cmdLine :: "\x7b\x7d" :: goodLines k from rfl]
    unfold bulkLoop
    rw [stepA]
    by_cases hmil : 1000 ≤ n + 1
    · rw [dif_neg (by simp), if_pos hmil]
      simp only [addIngested]
      rw [ih]
      simp [addsFor, hmil, List.replicate_succ]
      omega
    · rw [dif_neg (by simp), if_neg hmil]
      rw [ih]
      simp [addsFor, hmil, List.replicate_succ]
      omega

theorem bulkLoop_goodEofDebug (k : Nat) :
    ∀ (n ck : Nat) (acc : List (List Row)) (dr : Nat) (adds : List Nat)
      (po bo lo : Nat) (lg : List Row),
    bulkLoop decodeEmpty 0 "_time" "" (processLogMessage true neverFlush)
        ⟨goodLines k, .eof, ⟨[], acc, dr, adds, po, bo, lo, lg⟩⟩ n ck =
      (⟨[], .eof, ⟨[], acc, dr + k, adds ++ addsFor k n ck, po, bo, lo,
          lg ++ List.replicate k emptyRow⟩⟩,
        n + k, none) := by
  induction k with
  | zero =>
    intro n ck acc dr adds po bo lo lg
    unfold bulkLoop
    rw [show goodLines 0 = ([] : List String) from rfl]
    rw [step_eof]
    simp [addIngested, addsFor]
  | succ k ih =>
    intro n ck acc dr adds po bo lo lg
    rw [show goodLines (k + 1) = cmdLine :: "\x7b\x7d" :: goodLines k from rfl]
    unfold bulkLoop
    rw [stepB]
    by_cases hmil : 1000 ≤ n + 1
    · rw [dif_neg (by simp), if_pos hmil]
      simp only [addIngested]
      rw [ih]
      simp [addsFor, hmil, List.replicate_succ]
      omega
    · rw [dif_neg (by simp), if_neg hmil]
      rw [ih]
      simp [addsFor, hmil, List.replicate_succ]
      omega

theorem addsFor_sum (k : Nat) :
    ∀ n ck, ck ≤ n → (addsFor k n ck).sum = n + k - ck := by
  induction k with
  | zero =>
    intro n ck h
    simp [addsFor]
  | succ k ih =>
    intro n ck h
    unfold addsFor
    by_cases hmil : 1000 ≤ n + 1
    · rw [if_pos hmil]
      simp [List.sum_cons, ih (n + 1) (n + 1) le_rfl]
      omega
    · rw [if_neg hmil]
      rw [ih (n + 1) ck (by omega)]
      omega

theorem requestHandler_runBadTail (k : Nat) :
    requestHandlerBulk decodeEmpty 0 "_time" "" false neverFlush
        (goodLines k ++ [cmdLine, "bad"]) .eof =
      (⟨[], .eof, ⟨List.replicate k emptyRow, [], 0, addsFor k 0 0, 1, 0, 1, []⟩⟩,
        k, some .badDocument) := by
  unfold requestHandlerBulk readBulkRequest initialEffects
  dsimp only
  rw [bulkLoop_goodThenBad]
  simp

theorem requestHandler_runGoodEof (k : Nat) :
    requestHandlerBulk decodeEmpty 0 "_time" "" false neverFlush (goodLines k) .eof =
      (⟨[], .eof, ⟨List.replicate k emptyRow, [List.replicate k emptyRow], 0,
          addsFor k 0 0, 0, 0, 0, []⟩⟩,
        k, none) := by
  unfold requestHandlerBulk readBulkRequest initialEffects
  dsimp only
  rw [bulkLoop_goodEof]
  simp

theorem requestHandler_runDebugEof (k : Nat) :
    requestHandlerBulk decodeEmpty 0 "_time" "" true neverFlush (goodLines k) .eof =
      (⟨[], .eof, ⟨[], [[]], k, addsFor k 0 0, 0, 0, 0, List.replicate k emptyRow⟩⟩,
        k, none) := by
  unfold requestHandlerBulk readBulkRequest initialEffects
  dsimp only
  rw [bulkLoop_goodEofDebug]
  simp

theorem processLogMessage_parserOut (isDebug : Bool) (needFlush : List Row → Bool)
    (ts : Int) (fields : List Field) (fx : Effects) :
    (processLogMessage isDebug needFlush ts fields fx).parserOut = fx.parserOut := by
  unfold processLogMessage
  split
  · rfl
  · dsimp only
    split
    · rfl
    · rfl

theorem processLogMessage_bufOut (isDebug : Bool) (needFlush : List Row → Bool)
    (ts : Int) (fields : List Field) (fx : Effects) :
    (processLogMessage isDebug needFlush ts fields fx).bufOut = fx.bufOut := by
  unfold processLogMessage
  split
  · rfl
  · dsimp only
    split
    · rfl
    · rfl

theorem processLogMessage_lrOut (isDebug : Bool) (needFlush : List Row → Bool)
    (ts : Int) (fields : List Field) (fx : Effects) :
    (processLogMessage isDebug needFlush ts fields fx).lrOut = fx.lrOut := by
  unfold processLogMessage
  split
  · rfl
  · dsimp only
    split
    · rfl
    · rfl

theorem readBulkLine_pools (decode : String → Option (List Field)) (now : Int)
    (timeField msgField : String) (isDebug : Bool) (needFlush : List Row → Bool) (st : St) :
    ((readBulkLine decode now timeField msgField (processLogMessage isDebug needFlush) st).1.fx.bufOut
        = st.fx.bufOut)
    ∧ ((readBulkLine decode now timeField msgField (processLogMessage isDebug needFlush) st).1.fx.lrOut
        = st.fx.lrOut)
    ∧ ((readBulkLine decode now timeField msgField (processLogMessage isDebug needFlush) st).2.2 = none →
        (readBulkLine decode now timeField msgField (processLogMessage isDebug needFlush) st).1.fx.parserOut
          = st.fx.parserOut) := by
  unfold readBulkLine
  split
  · split <;> exact ⟨rfl, rfl, fun h => by first | rfl | simp at h⟩
  · split
    · exact ⟨rfl, rfl, fun h => by simp at h⟩
    · split
      · split <;> exact ⟨rfl, rfl, fun h => by simp at h⟩
      · dsimp only
        split
        · exact ⟨rfl, rfl, fun h => by simp at h⟩
        · split
          · exact ⟨rfl, rfl, fun h => by simp at h⟩
          · refine ⟨?_, ?_, fun h => ?_⟩ <;>
              simp [processLogMessage_parserOut, processLogMessage_bufOut,
                processLogMessage_lrOut]

theorem bulkLoop_pools (decode : String → Option (List Field)) (now : Int)
    (timeField msgField : String) (isDebug : Bool) (needFlush : List Row → Bool)
    (st : St) (n ck : Nat) :
    ((bulkLoop decode now timeField msgField (processLogMessage isDebug needFlush) st n ck).1.fx.bufOut
        = st.fx.bufOut)
    ∧ ((bulkLoop decode now timeField msgField (processLogMessage isDebug needFlush) st n ck).1.fx.lrOut
        = st.fx.lrOut)
    ∧ ((bulkLoop decode now timeField msgField (processLogMessage isDebug needFlush) st n ck).2.2 = none →
        (bulkLoop decode now timeField msgField (processLogMessage isDebug needFlush) st n ck).1.fx.parserOut
          = st.fx.parserOut) := by
  induction st, n, ck using bulkLoop.induct decode now timeField msgField
      (processLogMessage isDebug needFlush) with
  | case1 st n ck h =>
    have hr := readBulkLine_pools decode now timeField msgField isDebug needFlush st
    unfold bulkLoop
    rw [dif_pos h]
    refine ⟨by simp [addIngested, hr.1], by simp [addIngested, hr.2.1], fun he => ?_⟩
    simp only [addIngested] at he ⊢
    exact hr.2.2 he
  | case2 st n ck h hmil ih =>
    have hr := readBulkLine_pools decode now timeField msgField isDebug needFlush st
    push_neg at h
    unfold bulkLoop
    rw [dif_neg (by push_neg; exact h), if_pos hmil]
    refine ⟨?_, ?_, fun he => ?_⟩
    · rw [ih.1]
      simp [addIngested, hr.1]
    · rw [ih.2.1]
      simp [addIngested, hr.2.1]
    · rw [ih.2.2 he]
      simp only [addIngested]
      exact hr.2.2 h.1
  | case3 st n ck h hmil ih =>
    have hr := readBulkLine_pools decode now timeField msgField isDebug needFlush st
    push_neg at h
    unfold bulkLoop
    rw [dif_neg (by push_neg; exact h), if_neg hmil]
    refine ⟨?_, ?_, fun he => ?_⟩
    · rw [ih.1, hr.1]
    · rw [ih.2.1, hr.2.1]
    · rw [ih.2.2 he]
      exact hr.2.2 h.1

theorem addsFor_saturated (k : Nat) :
    ∀ n, 999 ≤ n → addsFor k n n = List.replicate k 1 ++ [0] := by
  induction k with
  | zero =>
    intro n h
    simp [addsFor]
  | succ k ih =>
    intro n h
    unfold addsFor
    rw [if_pos (by omega)]
    rw [show n + 1 - n = 1 from by omega]
    rw [ih (n + 1) (by omega)]
    simp [List.replicate_succ]

theorem addsFor_crossing (k : Nat) :
    ∀ n, n < 1000 → 1000 ≤ n + k →
      addsFor k n 0 = 1000 :: (List.replicate (n + k - 1000) 1 ++ [0]) := by
  induction k with
  | zero =>
    intro n h1 h2
    omega
  | succ k ih =>
    intro n h1 h2
    unfold addsFor
    by_cases hmil : 1000 ≤ n + 1
    · rw [if_pos hmil]
      rw [show n + 1 - 0 = 1000 from by omega]
      rw [addsFor_saturated k (n + 1) (by omega)]
      rw [show n + (k + 1) - 1000 = k from by omega]
    · rw [if_neg hmil]
      rw [ih (n + 1) (by omega) (by omega)]
      rw [show n + 1 + k = n + (k + 1) from by omega]

/-- C1 counterexample: one well-formed line-pair followed by a line-pair
whose document fails to decode.  The request returns row count 1, but
zero rows reach the storage accept path — `vlstorage.MustAddRows` is
never called (`accepted = []`), because on error `RequestHandler` logs
and returns without the final flush the claim requires. -/
theorem c1_counterexample_rows_not_flushed :
    (requestHandlerBulk decodeEmpty 0 "_time" "" false neverFlush
        [cmdLine, "\x7b\x7d", cmdLine, "bad"] .eof).2.1 = 1
    ∧ (requestHandlerBulk decodeEmpty 0 "_time" "" false neverFlush
        [cmdLine, "\x7b\x7d", cmdLine, "bad"] .eof).2.2 = some .badDocument
    ∧ acceptedRows (requestHandlerBulk decodeEmpty 0 "_time" "" false neverFlush
        [cmdLine, "\x7b\x7d", cmdLine, "bad"] .eof).1.fx = 0
    ∧ acceptedRows (requestHandlerBulk decodeEmpty 0 "_time" "" false neverFlush
        [cmdLine, "\x7b\x7d", cmdLine, "bad"] .eof).1.fx ≠ 1
    ∧ (requestHandlerBulk decodeEmpty 0 "_time" "" false neverFlush
        [cmdLine, "\x7b\x7d", cmdLine, "bad"] .eof).1.fx.accepted = [] := by
  have h : requestHandlerBulk decodeEmpty 0 "_time" "" false neverFlush
      [cmdLine, "\x7b\x7d", cmdLine, "bad"] .eof =
      (⟨[], .eof, ⟨List.replicate 1 emptyRow, [], 0, addsFor 1 0 0, 1, 0, 1, []⟩⟩,
        1, some .badDocument) := requestHandler_runBadTail 1
  rw [h]
  refine ⟨rfl, rfl, rfl, by decide, rfl⟩

/-- C1 (amended): for a stream of `k` well-formed line-pairs followed by
a line-pair whose document fails to decode (with a flush threshold that
is never crossed), the handler does NOT issue a final flush on the error
path: no call to the storage accept path is made (`accepted = []`, zero
rows reach storage), the `k` decoded rows are left in the unflushed batch
and discarded; the returned row count still equals `k` and the error
identifies the decode failure. -/
theorem c1_error_aborts_without_final_flush (k : Nat) :
    requestHandlerBulk decodeEmpty 0 "_time" "" false neverFlush
        (goodLines k ++ [cmdLine, "bad"]) .eof =
      (⟨[], .eof, ⟨List.replicate k emptyRow, [], 0, addsFor k 0 0, 1, 0, 1, []⟩⟩,
        k, some .badDocument)
    ∧ acceptedRows (requestHandlerBulk decodeEmpty 0 "_time" "" false neverFlush
        (goodLines k ++ [cmdLine, "bad"]) .eof).1.fx = 0
    ∧ (requestHandlerBulk decodeEmpty 0 "_time" "" false neverFlush
        (goodLines k ++ [cmdLine, "bad"]) .eof).2.1 = k := by
  have h := requestHandler_runBadTail k
  refine ⟨h, ?_, ?_⟩ <;> rw [h] <;> rfl

/-- C2 counterexample: a debug request with one well-formed line-pair.
The accept path receives zero rows and the dropped counter increases by
1 as claimed, but the ingested-row counter ALSO increases by 1 (the sum
of `rowsIngestedTotal.Add` deltas is 1, not 0), refuting "the
ingested-row counter does not change". -/
theorem c2_counterexample_ingested_counter_changes :
    (requestHandlerBulk decodeEmpty 0 "_time" "" true neverFlush
        [cmdLine, "\x7b\x7d"] .eof).1.fx.droppedTotal = 1
    ∧ acceptedRows (requestHandlerBulk decodeEmpty 0 "_time" "" true neverFlush
        [cmdLine, "\x7b\x7d"] .eof).1.fx = 0
    ∧ (requestHandlerBulk decodeEmpty 0 "_time" "" true neverFlush
        [cmdLine, "\x7b\x7d"] .eof).1.fx.ingestedAdds.sum = 1
    ∧ (requestHandlerBulk decodeEmpty 0 "_time" "" true neverFlush
        [cmdLine, "\x7b\x7d"] .eof).1.fx.ingestedAdds.sum ≠ 0 := by
  have h : requestHandlerBulk decodeEmpty 0 "_time" "" true neverFlush
      [cmdLine, "\x7b\x7d"] .eof =
      (⟨[], .eof, ⟨[], [[]], 1, addsFor 1 0 0, 0, 0, 0, List.replicate 1 emptyRow⟩⟩,
        1, none) := requestHandler_runDebugEof 1
  rw [h]
  refine ⟨rfl, rfl, rfl, by decide⟩

/-- C2 (amended): for a debug request with `k` successfully decoded
line-pairs, zero rows reach the storage accept path and the dropped-row
counter increases by exactly `k`, but the ingested-row counter ALSO
increases by `k`: the loop counts every successfully decoded line-pair
toward `rowsIngestedTotal` whether or not debug mode discarded it. -/
theorem c2_debug_drops_all_but_counts_ingested (k : Nat) :
    acceptedRows (requestHandlerBulk decodeEmpty 0 "_time" "" true neverFlush
        (goodLines k) .eof).1.fx = 0
    ∧ (requestHandlerBulk decodeEmpty 0 "_time" "" true neverFlush
        (goodLines k) .eof).1.fx.droppedTotal = k
    ∧ (requestHandlerBulk decodeEmpty 0 "_time" "" true neverFlush
        (goodLines k) .eof).1.fx.ingestedAdds.sum = k
    ∧ (requestHandlerBulk decodeEmpty 0 "_time" "" true neverFlush
        (goodLines k) .eof).2.1 = k := by
  have h := requestHandler_runDebugEof k
  refine ⟨by rw [h]; rfl, by rw [h], ?_, by rw [h]⟩
  rw [h]
  show (addsFor k 0 0).sum = k
  have := addsFor_sum k 0 0 le_rfl
  simpa using this

/-- C3: `parseElasticsearchTimestamp` dispatches on the shape of the
input with exactly the spec's precedence — "length at least 10 and 5th
character not `'-'`, OR length less than 10" selects the milliseconds
branch, else length exactly 10 selects the calendar-date branch, else
RFC 3339 — with each branch failing with its `BadTimestamp` error kind
when its parse fails (the branches of `specTimestampDispatch`). -/
theorem c3_timestamp_dispatch_matches_spec (s : String) :
    parseElasticsearchTimestamp s = specTimestampDispatch s := by
  unfold parseElasticsearchTimestamp specTimestampDispatch specMillisBranch
    specDateBranch specRfc3339Branch
  by_cases h10 : s.data.length < 10
  · have hc : s.data.length < 10 ∨ s.data[4]? ≠ some '-' := Or.inl h10
    have hs : (10 ≤ s.data.length ∧ s.data[4]? ≠ some '-') ∨ s.data.length < 10 :=
      Or.inr h10
    rw [if_pos hc, if_pos hs]
  · by_cases h4 : s.data[4]? = some '-'
    · have hnc : ¬(s.data.length < 10 ∨ s.data[4]? ≠ some '-') :=
        fun hc => hc.elim h10 (fun hne => hne h4)
      have hns : ¬((10 ≤ s.data.length ∧ s.data[4]? ≠ some '-') ∨ s.data.length < 10) :=
        fun hc => hc.elim (fun hx => hx.2 h4) h10
      rw [if_neg hnc, if_neg hns]
    · have hc : s.data.length < 10 ∨ s.data[4]? ≠ some '-' := Or.inr h4
      have hs : (10 ≤ s.data.length ∧ s.data[4]? ≠ some '-') ∨ s.data.length < 10 :=
        Or.inl ⟨Nat.le_of_not_lt h10, h4⟩
      rw [if_pos hc, if_pos hs]

/-- C4: in the milliseconds branch, for every successfully parsed 64-bit
integer `n`, parsing fails with an overflow error exactly when
`n > MaxInt64/1e6` or `n < MinInt64/1e6` (the guard constants are those
exact integer divisions), and otherwise yields exactly `n * 1_000_000`
nanoseconds; in particular `"1700000000000"` yields
`1700000000000 * 1e6` and `"9223372036854775"` fails with the
too-big overflow error. -/
theorem c4_milliseconds_overflow_guard :
    maxInt64DivMillion = (9223372036854775807 : Int) / 1000000
    ∧ minInt64DivMillion = -((9223372036854775808 : Int) / 1000000)
    ∧ parseElasticsearchTimestamp "1700000000000" = .ok (1700000000000 * 1000000)
    ∧ parseElasticsearchTimestamp "9223372036854775" = .error (.msTooBig 9223372036854775)
    ∧ ∀ s n, goParseInt64 s = some n →
        (s.data.length < 10 ∨ s.data[4]? ≠ some '-') →
        (((parseElasticsearchTimestamp s = .error (.msTooBig n)) ∨
            (parseElasticsearchTimestamp s = .error (.msTooSmall n))) ↔
          (n > maxInt64DivMillion ∨ n < minInt64DivMillion))
        ∧ (n ≤ maxInt64DivMillion → minInt64DivMillion ≤ n →
            parseElasticsearchTimestamp s = .ok (n * 1000000)) := by
  refine ⟨by decide, by decide, rfl, rfl, ?_⟩
  intro s n hp hdisp
  unfold parseElasticsearchTimestamp
  rw [if_pos hdisp, hp]
  dsimp only
  constructor
  · by_cases hbig : n > maxInt64DivMillion
    · rw [if_pos hbig]
      simp [hbig]
    · rw [if_neg hbig]
      by_cases hsmall : n < minInt64DivMillion
      · rw [if_pos hsmall]
        simp [hbig, hsmall]
      · rw [if_neg hsmall]
        simp [hbig, hsmall]
  · intro hle hge
    rw [if_neg (not_lt.mpr hle), if_neg (not_lt.mpr hge)]

/-- C4 witness: the universally quantified part of
`c4_milliseconds_overflow_guard` applied at the in-range input `"5"`. -/
theorem c4_milliseconds_overflow_guard_witness :
    goParseInt64 "5" = some 5
    ∧ parseElasticsearchTimestamp "5" = .ok (5 * 1000000) := by
  refine ⟨rfl, ?_⟩
  have h := c4_milliseconds_overflow_guard.2.2.2.2 "5" 5 rfl (Or.inl (by decide))
  exact h.2 (by decide) (by decide)

/-- C5 counterexample: fields `[{name := "_time", value := "123"}]` with
time field `_time`.  The parse succeeds and the value is cleared, but the
field is NOT removed from the list and its NAME is not cleared: the
returned list still contains a field named `_time`, refuting "that
matched field is removed from the field list (its name and value
cleared)". -/
theorem c5_counterexample_field_name_not_cleared :
    (extractTimestampFromFields 0 "_time" [⟨"_time", "123"⟩]).1 = .ok 123000000
    ∧ (extractTimestampFromFields 0 "_time" [⟨"_time", "123"⟩]).2 = [⟨"_time", ""⟩]
    ∧ (extractTimestampFromFields 0 "_time" [⟨"_time", "123"⟩]).2.map Field.name ≠ [""]
    ∧ (extractTimestampFromFields 0 "_time" [⟨"_time", "123"⟩]).2 ≠ [] := by
  refine ⟨rfl, rfl, by decide, by decide⟩

/-- C5 (amended): if no field matches the configured time-field name the
extractor returns the wall-clock `now` and leaves every field untouched;
if a match exists only the first matching field is consulted, and on
successful parse only that field's VALUE is cleared — the field itself,
with its name, stays in place — while every earlier and later field
(including later fields with the same name) is left untouched. -/
theorem c5_time_field_value_cleared_first_match_only (now : Int) (timeField : String) :
    (∀ fields, (∀ f ∈ fields, f.name ≠ timeField) →
      extractTimestampFromFields now timeField fields = (.ok now, fields))
    ∧ (∀ pre f post ts, (∀ g ∈ pre, g.name ≠ timeField) → f.name = timeField →
        parseElasticsearchTimestamp f.value = .ok ts →
        extractTimestampFromFields now timeField (pre ++ f :: post) =
          (.ok ts, pre ++ { f with value := "" } :: post)) := by
  constructor
  · intro fields h
    induction fields with
    | nil => rfl
    | cons a t ih =>
      unfold extractTimestampFromFields
      rw [if_neg (h a (List.mem_cons_self a t))]
      rw [ih (fun g hg => h g (List.mem_cons_of_mem a hg))]
  · intro pre f post ts hpre hf hparse
    induction pre with
    | nil =>
      simp only [List.nil_append]
      unfold extractTimestampFromFields
      rw [if_pos hf, hparse]
    | cons a t ih =>
      have hane : a.name ≠ timeField := hpre a (List.mem_cons_self a t)
      simp only [List.cons_append]
      unfold extractTimestampFromFields
      rw [if_neg hane]
      rw [ih (fun g hg => hpre g (List.mem_cons_of_mem a hg))]

/-- C5 witness: the two parts of
`c5_time_field_value_cleared_first_match_only` at concrete field lists —
no match returns `now = 7` untouched; a first match at `"5"` is parsed to
5e6 ns and only its value cleared, leaving the duplicate `_time` field
after it untouched. -/
theorem c5_time_field_value_cleared_first_match_only_witness :
    extractTimestampFromFields 7 "_time" [⟨"a", "1"⟩] = (.ok 7, [⟨"a", "1"⟩])
    ∧ extractTimestampFromFields 7 "_time" [⟨"a", "1"⟩, ⟨"_time", "5"⟩, ⟨"_time", "6"⟩]
        = (.ok 5000000, [⟨"a", "1"⟩, ⟨"_time", ""⟩, ⟨"_time", "6"⟩]) := by
  refine ⟨(c5_time_field_value_cleared_first_match_only 7 "_time").1
    [⟨"a", "1"⟩] (by decide), ?_⟩
  have h := (c5_time_field_value_cleared_first_match_only 7 "_time").2
    [⟨"a", "1"⟩] ⟨"_time", "5"⟩ [⟨"_time", "6"⟩] 5000000 (by decide) rfl rfl
  simpa using h

/-- C6 code-bug witness: with 1001 well-formed line-pairs, the
`rowsIngestedTotal.Add` deltas are `[1000, 1, 0]` — after the checkpoint
at row 1000 the metric is incremented again at row 1001 with a delta of
1 (only one row accumulated since the checkpoint), because the source
tests `n >= 1000` instead of `batchSize >= 1000`; the claim's "only when
1000 new rows have accumulated" batching is violated, while the total
still equals the row count 1001. -/
theorem c6_checkpoint_fires_every_row_past_1000 :
    (requestHandlerBulk decodeEmpty 0 "_time" "" false neverFlush
        (goodLines 1001) .eof).1.fx.ingestedAdds = [1000, 1, 0]
    ∧ (requestHandlerBulk decodeEmpty 0 "_time" "" false neverFlush
        (goodLines 1001) .eof).2.1 = 1001
    ∧ ([1000, 1, 0] : List Nat).sum = 1001 := by
  have hadds : addsFor 1001 0 0 = [1000, 1, 0] := by
    rw [addsFor_crossing 1001 0 (by omega) (by omega)]
    rfl
  have h := requestHandler_runGoodEof 1001
  rw [hadds] at h
  rw [h]
  exact ⟨rfl, rfl, by decide⟩

/-- C7: while awaiting the command line blank lines are skipped
(prepending blank lines never changes the outcome of `readBulkLine`);
end-of-stream with no command pending yields the clean `(false, none)`
no-more-records result, whereas end-of-stream after a command line but
before its document yields `missingDocument` — two distinct branches. -/
theorem c7_blank_skip_and_distinct_eof_branches :
    (∀ (decode : String → Option (List Field)) (now : Int) (timeField msgField : String)
        (process : Int → List Field → Effects → Effects) (st : St) (b : Nat),
      readBulkLine decode now timeField msgField process
          { st with lines := List.replicate b "" ++ st.lines }
        = readBulkLine decode now timeField msgField process st)
    ∧ (∀ (decode : String → Option (List Field)) (now : Int) (timeField msgField : String)
        (process : Int → List Field → Effects → Effects) (st : St),
        st.lines.dropWhile (fun l => l = "") = [] → st.ending = .eof →
        readBulkLine decode now timeField msgField process st
          = ({ st with lines := [] }, false, none))
    ∧ (∀ (decode : String → Option (List Field)) (now : Int) (timeField msgField : String)
        (process : Int → List Field → Effects → Effects) (st : St) (cmd : String),
        st.lines.dropWhile (fun l => l = "") = [cmd] → isBulkCommand cmd = true →
        st.ending = .eof →
        readBulkLine decode now timeField msgField process st
          = ({ st with lines := [] }, false, some .missingDocument)) := by
  refine ⟨?_, ?_, ?_⟩
  · intro decode now timeField msgField process st b
    unfold readBulkLine
    dsimp only
    rw [dropWhile_blank_replicate b st.lines]
  · intro decode now timeField msgField process st hdrop hend
    unfold readBulkLine
    rw [hdrop, hend]
  · intro decode now timeField msgField process st cmd hdrop hcmd hend
    unfold readBulkLine
    rw [hdrop, hend]
    dsimp only
    rw [if_neg (fun hn => hn hcmd)]

/-- C7 witness: `c7_blank_skip_and_distinct_eof_branches` at concrete
streams — two blank lines then EOF is the clean no-records result; a
blank line, a command line, then EOF is `missingDocument`. -/
theorem c7_blank_skip_and_distinct_eof_branches_witness :
    readBulkLine decodeEmpty 0 "_time" "" (processLogMessage false neverFlush)
        ⟨["", ""], .eof, initialEffects⟩ = (⟨[], .eof, initialEffects⟩, false, none)
    ∧ readBulkLine decodeEmpty 0 "_time" "" (processLogMessage false neverFlush)
        ⟨["", cmdLine], .eof, initialEffects⟩
        = (⟨[], .eof, initialEffects⟩, false, some .missingDocument) :=
  ⟨c7_blank_skip_and_distinct_eof_branches.2.1 decodeEmpty 0 "_time" ""
      (processLogMessage false neverFlush) ⟨["", ""], .eof, initialEffects⟩ rfl rfl,
    c7_blank_skip_and_distinct_eof_branches.2.2 decodeEmpty 0 "_time" ""
      (processLogMessage false neverFlush) ⟨["", cmdLine], .eof, initialEffects⟩
      cmdLine rfl rfl rfl⟩

/-- C8 counterexample: a single line-pair whose document fails to decode.
At exit the checked-out object counts are `parserOut = 1` and
`lrOut = 1`: the `logjson` parser and the pooled `LogRows` batch are NOT
returned to their pools on this error path (only the line buffer is,
`bufOut = 0`), refuting "each returned to their pools whether the
request ends cleanly or terminates with a decode error". -/
theorem c8_counterexample_parser_and_batch_leak_on_error :
    (requestHandlerBulk decodeEmpty 0 "_time" "" false neverFlush
        [cmdLine, "bad"] .eof).1.fx.parserOut = 1
    ∧ (requestHandlerBulk decodeEmpty 0 "_time" "" false neverFlush
        [cmdLine, "bad"] .eof).1.fx.lrOut = 1
    ∧ (requestHandlerBulk decodeEmpty 0 "_time" "" false neverFlush
        [cmdLine, "bad"] .eof).1.fx.parserOut ≠ 0
    ∧ (requestHandlerBulk decodeEmpty 0 "_time" "" false neverFlush
        [cmdLine, "bad"] .eof).1.fx.lrOut ≠ 0
    ∧ (requestHandlerBulk decodeEmpty 0 "_time" "" false neverFlush
        [cmdLine, "bad"] .eof).1.fx.bufOut = 0 := by
  have h : requestHandlerBulk decodeEmpty 0 "_time" "" false neverFlush
      [cmdLine, "bad"] .eof =
      (⟨[], .eof, ⟨List.replicate 0 emptyRow, [], 0, addsFor 0 0 0, 1, 0, 1, []⟩⟩,
        0, some .badDocument) := requestHandler_runBadTail 0
  rw [h]
  refine ⟨rfl, rfl, by decide, by decide, rfl⟩

/-- C8 (amended): the line buffer is returned to its pool on every exit
path (`bufOut = 0` whatever happens, thanks to the deferred
`lineBufferPool.Put`); the `logjson` parser and the pooled batch object
are guaranteed returned only when the request completes cleanly
(`err = none` implies `parserOut = 0` and `lrOut = 0`) — on decode-error
exits they can leak, as the counterexample shows. -/
theorem c8_buffer_always_returned_parser_and_batch_only_on_success
    (decode : String → Option (List Field)) (now : Int)
    (timeField msgField : String) (isDebug : Bool) (needFlush : List Row → Bool)
    (lines : List String) (ending : ScanEnd) :
    ((requestHandlerBulk decode now timeField msgField isDebug needFlush lines ending).1.fx.bufOut = 0)
    ∧ ((requestHandlerBulk decode now timeField msgField isDebug needFlush lines ending).2.2 = none →
        (requestHandlerBulk decode now timeField msgField isDebug needFlush lines ending).1.fx.parserOut = 0
        ∧ (requestHandlerBulk decode now timeField msgField isDebug needFlush lines ending).1.fx.lrOut = 0) := by
  have hp := bulkLoop_pools decode now timeField msgField isDebug needFlush
    ⟨lines, ending, { initialEffects with bufOut := initialEffects.bufOut + 1 }⟩ 0 0
  unfold requestHandlerBulk readBulkRequest
  dsimp only
  rcases hL : bulkLoop decode now timeField msgField (processLogMessage isDebug needFlush)
      ⟨lines, ending, { initialEffects with bufOut := initialEffects.bufOut + 1 }⟩ 0 0
    with ⟨st1, n1, err1⟩
  rw [hL] at hp
  simp only [initialEffects] at hp
  rcases err1 with _ | e
  · dsimp only
    refine ⟨?_, fun _ => ⟨?_, ?_⟩⟩
    · have := hp.1
      simp at this
      omega
    · exact hp.2.2 rfl
    · have := hp.2.1
      simp at this
      omega
  · dsimp only
    refine ⟨?_, fun he => by simp at he⟩
    have := hp.1
    simp at this
    omega

/-- C8 witness: `c8_buffer_always_returned_parser_and_batch_only_on_success`
at the empty request stream, which ends cleanly: all three pool counters
are back to zero. -/
theorem c8_buffer_always_returned_parser_and_batch_only_on_success_witness :
    (requestHandlerBulk decodeEmpty 0 "_time" "" false neverFlush [] .eof).1.fx.bufOut = 0
    ∧ (requestHandlerBulk decodeEmpty 0 "_time" "" false neverFlush [] .eof).1.fx.parserOut = 0
    ∧ (requestHandlerBulk decodeEmpty 0 "_time" "" false neverFlush [] .eof).1.fx.lrOut = 0 := by
  have h := c8_buffer_always_returned_parser_and_batch_only_on_success
    decodeEmpty 0 "_time" "" false neverFlush [] .eof
  have he : (requestHandlerBulk decodeEmpty 0 "_time" "" false neverFlush [] .eof).2.2 = none :=
    congrArg (fun x => x.2.2) (requestHandler_runGoodEof 0)
  exact ⟨h.1, (h.2 he).1, (h.2 he).2⟩

/-- C9: `updateMessageFieldName` is a no-op when the configured name is
empty and when no field matches; otherwise the first field whose name
equals the configured name has its name rewritten to the canonical
`_msg` with its value unchanged, and the scan stops there — later fields
(including later fields with the same original name) are unmodified. -/
theorem c9_message_field_remap_first_match (msgField : String) :
    (∀ fields, msgField = "" → updateMessageFieldName msgField fields = fields)
    ∧ (∀ fields, (∀ f ∈ fields, f.name ≠ msgField) →
        updateMessageFieldName msgField fields = fields)
    ∧ (∀ pre f post, msgField ≠ "" → (∀ g ∈ pre, g.name ≠ msgField) → f.name = msgField →
        updateMessageFieldName msgField (pre ++ f :: post) =
          pre ++ ({ name := "_msg", value := f.value } : Field) :: post) := by
  refine ⟨?_, ?_, ?_⟩
  · intro fields h
    unfold updateMessageFieldName
    rw [if_pos h]
  · intro fields h
    unfold updateMessageFieldName
    by_cases he : msgField = ""
    · rw [if_pos he]
    · rw [if_neg he]
      induction fields with
      | nil => rfl
      | cons a t ih =>
        unfold updateMessageFieldLoop
        rw [if_neg (h a (List.mem_cons_self a t))]
        rw [ih (fun g hg => h g (List.mem_cons_of_mem a hg))]
  · intro pre f post hne hpre hf
    unfold updateMessageFieldName
    rw [if_neg hne]
    induction pre with
    | nil =>
      simp only [List.nil_append]
      unfold updateMessageFieldLoop
      rw [if_pos hf]
    | cons a t ih =>
      simp only [List.cons_append]
      unfold updateMessageFieldLoop
      rw [if_neg (hpre a (List.mem_cons_self a t))]
      rw [ih (fun g hg => hpre g (List.mem_cons_of_mem a hg))]

/-- C9 witness: `c9_message_field_remap_first_match` at concrete field
lists — an empty configured name changes nothing; with name `m`, the
first matching field becomes `_msg` (value kept) and the second `m`
field is untouched. -/
theorem c9_message_field_remap_first_match_witness :
    updateMessageFieldName "" [⟨"m", "v"⟩] = [⟨"m", "v"⟩]
    ∧ updateMessageFieldName "m" [⟨"a", "1"⟩, ⟨"m", "v"⟩, ⟨"m", "w"⟩] =
        [⟨"a", "1"⟩, ⟨"_msg", "v"⟩, ⟨"m", "w"⟩] := by
  refine ⟨(c9_message_field_remap_first_match "").1 [⟨"m", "v"⟩] rfl, ?_⟩
  have h := (c9_message_field_remap_first_match "m").2.2
    [⟨"a", "1"⟩] ⟨"m", "v"⟩ [⟨"m", "w"⟩] (by decide) (by decide) rfl
  simpa using h

/-- C10: when a line-pair fails after its document line was read — the
document fails to decode or the timestamp fails to parse — the sink is
never invoked: the batch, the accepted flushes, and both diagnostic
counters are exactly as before the line-pair (for any sink `process`);
and on timestamp-parse failure `extractTimestampFromFields` returns the
field list completely unmutated (a value is cleared only after it parses
successfully). -/
theorem c10_failed_line_pair_leaves_batch_and_fields_unchanged :
    (∀ (decode : String → Option (List Field)) (now : Int) (timeField msgField : String)
        (process : Int → List Field → Effects → Effects) (st st1 : St) (ok : Bool) (e : BulkErr),
      readBulkLine decode now timeField msgField process st = (st1, ok, some e) →
      st1.fx.lr = st.fx.lr ∧ st1.fx.accepted = st.fx.accepted
        ∧ st1.fx.droppedTotal = st.fx.droppedTotal ∧ st1.fx.logged = st.fx.logged)
    ∧ (∀ (now : Int) (timeField : String) (fields : List Field) (e : TsErr),
        (extractTimestampFromFields now timeField fields).1 = .error e →
        (extractTimestampFromFields now timeField fields).2 = fields) := by
  constructor
  · intro decode now timeField msgField process st st1 ok e h
    unfold readBulkLine at h
    split at h
    · split at h <;>
        (replace h := congrArg (fun x => x.1.fx) h; simp at h; simp [← h])
    · split at h
      · replace h := congrArg (fun x => x.1.fx) h
        simp at h
        simp [← h]
      · split at h
        · split at h <;>
            (replace h := congrArg (fun x => x.1.fx) h; simp at h; simp [← h])
        · try dsimp only at h
          split at h
          · replace h := congrArg (fun x => x.1.fx) h
            simp at h
            simp [← h]
          · try dsimp only at h
            split at h
            · replace h := congrArg (fun x => x.1.fx) h
              simp at h
              simp [← h]
            · replace h := congrArg (fun x => x.2.2) h
              simp at h
  · intro now timeField fields e h
    induction fields with
    | nil => simp [extractTimestampFromFields] at h
    | cons a t ih =>
      unfold extractTimestampFromFields at h ⊢
      by_cases ha : a.name = timeField
      · rw [if_pos ha] at h ⊢
        split at h
        · rfl
        · simp at h
      · rw [if_neg ha] at h ⊢
        dsimp only at h ⊢
        rw [ih h]

/-- C10 witness: the two parts of
`c10_failed_line_pair_leaves_batch_and_fields_unchanged` at a concrete
bad-document stream (batch effects untouched) and a concrete
unparseable time-field value (field list returned unchanged). -/
theorem c10_failed_line_pair_leaves_batch_and_fields_unchanged_witness :
    ((readBulkLine decodeEmpty 0 "_time" "" (processLogMessage false neverFlush)
        ⟨[cmdLine, "bad"], .eof, initialEffects⟩).1.fx.lr = initialEffects.lr)
    ∧ (extractTimestampFromFields 0 "_time" [⟨"_time", "x"⟩]).2 = [⟨"_time", "x"⟩] :=
  ⟨(c10_failed_line_pair_leaves_batch_and_fields_unchanged.1 decodeEmpty 0 "_time" ""
      (processLogMessage false neverFlush) ⟨[cmdLine, "bad"], .eof, initialEffects⟩
      _ _ _ rfl).1,
    c10_failed_line_pair_leaves_batch_and_fields_unchanged.2 0 "_time"
      [⟨"_time", "x"⟩] .msParse rfl⟩

end ElasticsearchBulk
